import Mathlib

/-!
Verification development for the rfp-insight-bot retrieval pipeline.

The definitions below are a shallow embedding of the repository's code:

* the `nlp-processor` edge function (intent classification, keyword and
  entity extraction, search-filter derivation, `performAdvancedNLP`);
* the `chat-ai` edge function's cascading retrieval section
  (vector similarity search, NLP-enhanced keyword search, basic keyword
  search, and the per-strategy confidence formulas);
* the `search_documents_by_similarity` SQL function in its final form
  (the 20250827 migration: `SECURITY DEFINER` with an explicit
  `documents.user_id = auth.uid()` filter), together with the row-level
  ownership policy `auth.uid() = user_id` that governs the plain
  `from('documents')` queries of the two keyword strategies.

JavaScript strings are modelled by Lean `String`, numbers by `ℚ`,
and the pgvector cosine-distance operator by an abstract parameter
`dist : Doc → ℚ` giving each document's distance to the query embedding.
-/

namespace RfpBot

/-! ## String utilities (substring containment, lowercasing) -/

/-- Character-list prefix test, mirroring the prefix step of the
JavaScript substring test. -/
def startsWithL : List Char → List Char → Bool
  | [], _ => true
  | _ :: _, [] => false
  | a :: as, b :: bs => a == b && startsWithL as bs

/-- Substring containment of `pat` in a character list, mirroring the
JavaScript `String.prototype.includes`. -/
def hasSubL (pat : List Char) : List Char → Bool
  | [] => startsWithL pat []
  | c :: rest => startsWithL pat (c :: rest) || hasSubL pat rest

/-- Embedding of the JavaScript `s.includes(pat)`. -/
def strIncludes (s pat : String) : Bool := hasSubL pat.data s.data

/-- Embedding of the JavaScript `s.toLowerCase()` (per-character lowering). -/
def lowerStr (s : String) : String := String.mk (s.data.map Char.toLower)

/-! ## Intent classification (`nlp-processor`, `intentPatterns` and
`classifyIntent`) -/

/-- The fixed intent → trigger-phrase table of the source. -/
def intentPatterns : List (String × List String) :=
  [("information_retrieval",
    ["what is", "tell me about", "explain", "describe", "overview of",
     "information about", "details on", "help me understand", "how does",
     "what are the benefits"]),
   ("comparison",
    ["compare", "versus", "vs", "difference between", "better than",
     "similar to", "alternatives to", "choose between", "which is"]),
   ("summarization",
    ["summary", "summarize", "key points", "main points", "brief overview",
     "highlights", "in short", "tldr"]),
   ("specific_search",
    ["find documents", "search for", "look for", "show me documents",
     "examples of", "case studies about", "proposals for"]),
   ("general_question",
    ["how to", "best practices", "recommendations", "advice", "guidance",
     "should i", "can you help"])]

/-- Number of trigger phrases of a pattern list occurring in the
lower-cased text: `patterns.filter(p => lowerText.includes(p)).length`. -/
def countMatches (lowerText : String) (patterns : List String) : Nat :=
  (patterns.filter (fun p => strIncludes lowerText p)).length

/-- The per-intent confidence of the source:
`matches / patterns.length`. -/
def intentConfidence (lowerText : String) (ip : String × List String) : ℚ :=
  (countMatches lowerText ip.2 : ℚ) / (ip.2.length : ℚ)

/-- One iteration of the source's loop over the intent table: replace the
best match when this intent's confidence is strictly higher. -/
def classifyStep (lowerText : String) (best : String × ℚ)
    (ip : String × List String) : String × ℚ :=
  if best.2 < intentConfidence lowerText ip then (ip.1, intentConfidence lowerText ip)
  else best

/-- The source function `classifyIntent`: fold over the intent table keeping the
strictly best confidence, starting from the default
`(general_question, 0.3)`. -/
def classifyIntent (text : String) : String × ℚ :=
  intentPatterns.foldl (classifyStep (lowerStr text)) ("general_question", 3/10)

/-! ## Keyword extraction (`nlp-processor`, `extractKeywords`) -/

/-- The fixed stop-word set of `extractKeywords`. -/
def stopWords : List String :=
  ["the", "and", "or", "but", "in", "on", "at", "to", "for", "of", "with",
   "by", "is", "are", "was", "were", "be", "been", "being", "have", "has",
   "had", "do", "does", "did", "will", "would", "could", "should", "may",
   "might", "can", "this", "that", "these", "those", "a", "an", "as"]

/-- A word character in the sense of the JavaScript regex class. -/
def isWordChar (c : Char) : Bool := c.isAlphanum || c == '_'

/-- Split a character list on whitespace runs, dropping empty pieces,
mirroring `split` on a whitespace regex. -/
def wordsAux : List Char → List Char → List (List Char)
  | [], acc => if acc.isEmpty then [] else [acc.reverse]
  | c :: rest, acc =>
    if c.isWhitespace then
      if acc.isEmpty then wordsAux rest [] else acc.reverse :: wordsAux rest []
    else wordsAux rest (c :: acc)

/-- The source function `extractKeywords`: lower-case, replace non-word
non-space characters by spaces, split on whitespace, keep tokens longer
than two characters, then drop stop words (again with the length guard,
as in the source). -/
def extractKeywords (text : String) : List String :=
  let cleaned := (lowerStr text).data.map
    (fun c => if isWordChar c then c else if c.isWhitespace then c else ' ')
  let words := (wordsAux cleaned []).map String.mk
  let words := words.filter (fun w => w.length > 2)
  words.filter (fun w => !(stopWords.contains w) && w.length > 2)

/-! ## Entity extraction (`nlp-processor`, `domainKeywords` and
`extractEntities`) -/

/-- The industry vocabulary of `domainKeywords`. -/
def domainIndustries : List String :=
  ["healthcare", "finance", "financial services", "banking", "insurance",
   "manufacturing", "retail", "telecommunications", "telecom", "education",
   "government", "energy", "utilities", "automotive", "aerospace", "pharma",
   "pharmaceutical", "technology", "tech", "media", "entertainment"]

/-- The technology vocabulary of `domainKeywords`. -/
def domainTechnologies : List String :=
  ["cloud", "azure", "aws", "gcp", "migration", "digital transformation",
   "ai", "artificial intelligence", "machine learning", "ml", "iot",
   "blockchain", "cybersecurity", "security", "data analytics", "big data",
   "crm", "erp", "salesforce", "microsoft", "oracle", "sap"]

/-- The document-type vocabulary of `domainKeywords`. -/
def domainDocumentTypes : List String :=
  ["rfp", "proposal", "case study", "win loss", "analysis", "report",
   "presentation", "white paper", "implementation", "strategy"]

/-- Insert into an insertion-ordered set, mirroring `Set.prototype.add`. -/
def setAdd (l : List String) (x : String) : List String :=
  if l.contains x then l else l ++ [x]

/-- Add each element in turn to an insertion-ordered set. -/
def setAddAll (l : List String) (xs : List String) : List String :=
  xs.foldl setAdd l

/-- An ASCII upper-case letter, the regex class of capital letters. -/
def isUpperAZ (c : Char) : Bool := 'A' ≤ c && c ≤ 'Z'

/-- An ASCII lower-case letter. -/
def isLowerAZ (c : Char) : Bool := 'a' ≤ c && c ≤ 'z'

/-- Take the maximal run of ASCII lower-case letters. -/
def takeLowers : List Char → List Char × List Char
  | [] => ([], [])
  | c :: cs =>
    if isLowerAZ c then
      let p := takeLowers cs
      (c :: p.1, p.2)
    else ([], c :: cs)

/-- Take the maximal run of whitespace characters. -/
def takeWs : List Char → List Char × List Char
  | [] => ([], [])
  | c :: cs =>
    if c.isWhitespace then
      let p := takeWs cs
      (c :: p.1, p.2)
    else ([], c :: cs)

/-- A word boundary holds after the match when the rest is empty or
starts with a non-word character. -/
def boundaryAfter : List Char → Bool
  | [] => true
  | c :: _ => !isWordChar c

/-- One repetition of the capitalised-run pattern: whitespace followed by
an upper-case letter and at least one lower-case letter. -/
def tryRep (cs : List Char) : Option (List Char × List Char) :=
  let p := takeWs cs
  if p.1.isEmpty then none
  else
    match p.2 with
    | [] => none
    | c :: r2 =>
      if isUpperAZ c then
        let q := takeLowers r2
        if q.1.isEmpty then none else some (p.1 ++ c :: q.1, q.2)
      else none

/-- Greedy star over `tryRep`, with enough fuel to consume the input. -/
def repStarFuel : Nat → List Char → List (List Char) × List Char
  | 0, cs => ([], cs)
  | fuel + 1, cs =>
    match tryRep cs with
    | none => ([], cs)
    | some (chunk, rest) =>
      let p := repStarFuel fuel rest
      (chunk :: p.1, p.2)

/-- Attempt the capitalised-words pattern at the head of the list,
returning the matched characters and the rest. When the trailing word
boundary fails the last repetition is given back, as the regex engine
would backtrack. -/
def tryMatch : List Char → Option (List Char × List Char)
  | [] => none
  | c :: cs =>
    if isUpperAZ c then
      let q := takeLowers cs
      if q.1.isEmpty then none
      else
        let p := repStarFuel q.2.length q.2
        if boundaryAfter p.2 then some (c :: q.1 ++ p.1.flatten, p.2)
        else
          match p.1.getLast? with
          | none => none
          | some lastChunk => some (c :: q.1 ++ p.1.dropLast.flatten, lastChunk ++ p.2)
    else none

/-- Scan the text for capitalised-word runs, advancing one character on a
failed attempt and past the match on success, as the global regex does. -/
def scanCapsFuel : Nat → List Char → Bool → List String
  | 0, _, _ => []
  | _ + 1, [], _ => []
  | fuel + 1, c :: cs, prevWord =>
    if !prevWord && isUpperAZ c then
      match tryMatch (c :: cs) with
      | some (tok, rest) => String.mk tok :: scanCapsFuel fuel rest true
      | none => scanCapsFuel fuel cs (isWordChar c)
    else scanCapsFuel fuel cs (isWordChar c)

/-- All capitalised-word matches of the source's regex over the text. -/
def scanCaps (text : String) : List String :=
  scanCapsFuel text.data.length text.data false

/-- The capitalised common words excluded from the heuristic. -/
def capCommonWords : List String :=
  ["The", "And", "Or", "But", "In", "On", "At", "To", "For", "Of", "With", "By"]

/-- The source function `extractEntities`: the vocabulary pass over the three
domain lists in order, then the capitalisation heuristic, both feeding an
insertion-ordered set. -/
def extractEntities (text : String) : List String :=
  let lowerText := lowerStr text
  let vocabHits := (domainIndustries ++ domainTechnologies ++ domainDocumentTypes).filter
    (fun kw => strIncludes lowerText (lowerStr kw))
  let s1 := setAddAll [] vocabHits
  let caps := (scanCaps text).filter
    (fun w => w.length > 2 && !(capCommonWords.contains w))
  setAddAll s1 caps

/-! ## Search-filter derivation (`nlp-processor`, `extractSearchFilters`) -/

/-- The optional filter set of an `NLPAnalysis`. -/
structure SearchFilters where
  industries : Option (List String)
  clients : Option (List String)
  documentTypes : Option (List String)
  technologies : Option (List String)
  timeframe : Option String
deriving DecidableEq

/-- Word boundary before a match: no previous character, or a non-word
previous character. -/
def boundaryBefore : Option Char → Bool
  | none => true
  | some c => !isWordChar c

/-- Case-insensitive literal prefix match, returning the consumed original
characters and the rest. -/
def ciStrip : List Char → List Char → Option (List Char × List Char)
  | [], cs => some ([], cs)
  | _ :: _, [] => none
  | p :: ps, c :: cs =>
    if Char.toLower c == Char.toLower p then
      match ciStrip ps cs with
      | some (took, rest) => some (c :: took, rest)
      | none => none
    else none

/-- The final timeframe alternative of the regex. -/
def tryLatest (cs : List Char) : Option (List Char) :=
  match ciStrip ("latest".data) cs with
  | some (took, rest) => if boundaryAfter rest then some took else none
  | none => none

/-- The recent alternative, falling through to the latest one. -/
def tryTimeTail (cs : List Char) : Option (List Char) :=
  match ciStrip ("recent".data) cs with
  | some (took, rest) => if boundaryAfter rest then some took else tryLatest cs
  | none => tryLatest cs

/-- The last-year phrase alternative, then the remaining phrases. -/
def tryTimePhrases (cs : List Char) : Option (List Char) :=
  match ciStrip ("last".data) cs with
  | some (tookLast, r1) =>
    let p := takeWs r1
    if !p.1.isEmpty then
      match ciStrip ("year".data) p.2 with
      | some (tookYear, r2) =>
        if boundaryAfter r2 then some (tookLast ++ p.1 ++ tookYear)
        else tryTimeTail cs
      | none => tryTimeTail cs
    else tryTimeTail cs
  | none => tryTimeTail cs

/-- Attempt the timeframe alternatives of the source's regex at one
position, in the regex's alternation order (the four-digit years first,
then the literal phrases). -/
def tryTimeAt (prev : Option Char) (cs : List Char) : Option (List Char) :=
  if !(boundaryBefore prev) then none
  else
    match cs with
    | d1 :: d2 :: d3 :: d4 :: rest =>
      if d1 == '2' && d2 == '0' && (d3 == '2' || d3 == '1') && d4.isDigit
          && boundaryAfter rest then
        some [d1, d2, d3, d4]
      else tryTimePhrases (d1 :: d2 :: d3 :: d4 :: rest)
    | cs => tryTimePhrases cs

/-- Scan left to right for the first timeframe match. -/
def findTimeframeAux : Option Char → List Char → Option (List Char)
  | _, [] => none
  | prev, c :: cs =>
    match tryTimeAt prev (c :: cs) with
    | some m => some m
    | none => findTimeframeAux (some c) cs

/-- The first timeframe match in the text, as the source's
`text.match(...)` followed by taking the first element. -/
def findTimeframe (text : String) : Option String :=
  (findTimeframeAux none text.data).map String.mk

/-- The source function `extractSearchFilters`: keep the entities that equal a
vocabulary term case-insensitively, each field present only when
non-empty, plus the first timeframe match. -/
def extractSearchFilters (text : String) (entities : List String) : SearchFilters :=
  let industries := entities.filter
    (fun e => domainIndustries.any (fun ind => lowerStr ind == lowerStr e))
  let technologies := entities.filter
    (fun e => domainTechnologies.any (fun t => lowerStr t == lowerStr e))
  let documentTypes := entities.filter
    (fun e => domainDocumentTypes.any (fun t => lowerStr t == lowerStr e))
  { industries := if industries.length > 0 then some industries else none
    clients := none
    technologies := if technologies.length > 0 then some technologies else none
    documentTypes := if documentTypes.length > 0 then some documentTypes else none
    timeframe := findTimeframe text }

/-! ## The query analyzer (`nlp-processor`, `performAdvancedNLP`) -/

/-- The analysis object produced by the query analyzer. -/
structure NLPAnalysis where
  intent : String
  confidence : ℚ
  keywords : List String
  entities : List String
  queryType : String
  searchFilters : SearchFilters
deriving DecidableEq

/-- The heuristic fallback path of `performAdvancedNLP`: run
`extractKeywords`, `extractEntities`, `classifyIntent` and
`extractSearchFilters` and assemble the analysis object. -/
def fallbackAnalysis (text : String) : NLPAnalysis :=
  let keywords := extractKeywords text
  let entities := extractEntities text
  let ic := classifyIntent text
  let searchFilters := extractSearchFilters text entities
  { intent := ic.1
    confidence := ic.2
    keywords := keywords
    entities := entities
    queryType := ic.1
    searchFilters := searchFilters }

/-- The fields of the model's JSON reply, each possibly absent
(absent also stands for a JSON null). -/
structure AIAnalysisJson where
  intent : Option String
  confidence : Option ℚ
  keywords : Option (List String)
  entities : Option (List String)
  industries : Option (List String)
  technologies : Option (List String)
  documentTypes : Option (List String)
deriving DecidableEq

/-- Outcome of the language-model delegate call at the analyzer's
boundary: the fetch may reject, the response may carry a non-success
status, the body may fail to parse as JSON, or a parsed object arrives. -/
inductive DelegateOutcome where
  | fetchFailed : String → DelegateOutcome
  | httpNotOk : DelegateOutcome
  | parseFailed : DelegateOutcome
  | parsed : AIAnalysisJson → DelegateOutcome
deriving DecidableEq

/-- JavaScript value-or-default on a string: the empty string is falsy. -/
def jsOrString (v : Option String) (d : String) : String :=
  match v with
  | none => d
  | some s => if s = "" then d else s

/-- JavaScript value-or-default on a number: zero is falsy. -/
def jsOrNum (v : Option ℚ) (d : ℚ) : ℚ :=
  match v with
  | none => d
  | some x => if x = 0 then d else x

/-- JavaScript value-or-default on an array: only an absent value falls
back (an empty array is truthy). -/
def jsOrList (v : Option (List String)) (d : List String) : List String :=
  match v with
  | none => d
  | some l => l

/-- The analysis assembled from a successfully parsed model reply, with
the source's falsy-field defaulting. -/
def aiToAnalysis (j : AIAnalysisJson) : NLPAnalysis :=
  { intent := jsOrString j.intent ("general_question")
    confidence := jsOrNum j.confidence (7/10)
    keywords := jsOrList j.keywords []
    entities := jsOrList j.entities []
    queryType := jsOrString j.intent ("general_question")
    searchFilters :=
      { industries := j.industries
        clients := none
        technologies := j.technologies
        documentTypes := j.documentTypes
        timeframe := none } }

/-- The try block of `performAdvancedNLP`, with `Except` modelling the
exceptions that can arise inside it: a rejected fetch and a JSON parse
failure raise; a non-success status falls through the `if` and returns
nothing; a parsed reply returns the defaulted analysis. -/
def advancedNLPTry (outcome : DelegateOutcome) : Except String (Option NLPAnalysis) :=
  match outcome with
  | .fetchFailed e => .error e
  | .parseFailed => .error ("json parse error")
  | .httpNotOk => .ok none
  | .parsed j => .ok (some (aiToAnalysis j))

/-- The whole body of `performAdvancedNLP` at its boundary: the catch
swallows any exception of the try block, and whenever the try block did
not return an analysis the heuristic fallback is used. An `error` result
would mean an exception escaping the function. -/
def performAdvancedNLP (text : String) (outcome : DelegateOutcome) :
    Except String NLPAnalysis :=
  match
    (match advancedNLPTry outcome with
     | .error _ => Except.ok none
     | .ok v => Except.ok v : Except String (Option NLPAnalysis)) with
  | .ok (some a) => .ok a
  | .ok none => .ok (fallbackAnalysis text)
  | .error e => .error e

/-! ## The retrieval engine (`chat-ai`, steps 2 to 4 of `serve`)

The document store is a list of rows of the `documents` table. The
pgvector distance `embeddings <=> query_embedding` is abstracted by a
parameter `dist : Doc → ℚ`; the similarity of a row is `1 - dist d`, as
in the SQL body. The error flags model the store returning an error
object for the corresponding query, and `embedOk` models a successful
embedding call (a failed one skips the vector strategy). -/

/-- A row of the `documents` table (the columns the retrieval engine
reads). -/
structure Doc where
  id : Nat
  user_id : Option Nat
  title : String
  dtype : String
  client : String
  industry : String
  geography : String
  year : String
  summary : String
  content : String
  tags : List String
  embeddings : Option (List ℚ)
deriving DecidableEq

/-- The rows of the table visible to the authenticated caller under the
row-level policy `auth.uid() = user_id` (the 20250827155943 migration's
select policy for documents). -/
def visibleDocs (uid : Nat) (db : List Doc) : List Doc :=
  db.filter (fun d => d.user_id == some uid)

/-- The `search_documents_by_similarity` SQL function in its final form:
keep rows with a non-null embedding, owned by the caller, whose
similarity `1 - dist` exceeds the threshold; order by ascending distance;
limit to `match_count`. Returns each row with its similarity column. -/
def search_documents_by_similarity (db : List Doc) (uid : Nat) (dist : Doc → ℚ)
    (match_threshold : ℚ) (match_count : Nat) : List (Doc × ℚ) :=
  let rows := db.filter
    (fun d => d.embeddings.isSome && d.user_id == some uid
      && decide (match_threshold < 1 - dist d))
  let sorted := List.insertionSort
    (fun a b : Doc × ℚ => dist a.1 ≤ dist b.1)
    (rows.map (fun d => (d, 1 - dist d)))
  sorted.take match_count

/-- The vector-strategy confidence of the source:
`min(0.95, 0.4 + avgSimilarity * 0.6)`. -/
def vectorConfidenceOfAvg (avg : ℚ) : ℚ := min (95/100) (4/10 + avg * (6/10))

/-- The vector confidence over the similarity column of the returned
rows, averaging as the source's reduce-and-divide does. -/
def vectorConfidence (sims : List ℚ) : ℚ :=
  vectorConfidenceOfAvg (sims.sum / (sims.length : ℚ))

/-- The enhanced-text confidence of the source:
`0.7 + results * 0.03 + analysis.confidence * 0.15`, with no upper
clamp. -/
def enhancedConfidence (n : Nat) (c : ℚ) : ℚ :=
  7/10 + (n : ℚ) * (3/100) + c * (15/100)

/-- The basic-text confidence of the source: `0.5 + results * 0.05`. -/
def basicConfidence (n : Nat) : ℚ := 5/10 + (n : ℚ) * (5/100)

/-- The state threaded through the three strategies: the current result
set, its similarity column, the method tag, the confidence, and flags
recording which fallback strategies were attempted. -/
structure SearchState where
  documents : List Doc
  sims : List ℚ
  searchMethod : String
  confidence : ℚ
  ranEnhanced : Bool
  ranBasic : Bool
deriving DecidableEq

/-- Step 2 of `serve`: the vector similarity strategy. The state starts
at method `fallback` with base confidence `0.3`; a failed embedding call
or a store error leaves it unchanged; otherwise the method becomes
`vector` (even for zero rows) and the confidence is recomputed only when
rows were returned. The threshold `0.3` and count `8` are the source's
arguments. -/
def vectorStep (uid : Nat) (db : List Doc) (dist : Doc → ℚ)
    (embedOk vectorError : Bool) : SearchState :=
  let st0 : SearchState :=
    { documents := [], sims := [], searchMethod := "fallback"
      confidence := 3/10, ranEnhanced := false, ranBasic := false }
  if embedOk then
    if vectorError then st0
    else
      let vdocs := search_documents_by_similarity db uid dist (3/10) 8
      let documents := vdocs.map Prod.fst
      let sims := vdocs.map Prod.snd
      { st0 with
        documents := documents
        sims := sims
        searchMethod := "vector"
        confidence :=
          if documents.length > 0 then vectorConfidence sims else st0.confidence }
  else st0

/-- The search terms of the enhanced strategy: up to the top 3 keywords
plus top 2 entities, keeping only terms longer than two characters. -/
def searchTermsOf (a : NLPAnalysis) : List String :=
  (a.keywords.take 3 ++ a.entities.take 2).filter (fun t => t.length > 2)

/-- One disjunct of the enhanced strategy's pattern: a case-insensitive
substring match on title, summary or content, or exact containment in the
tags array. -/
def termMatchesDoc (d : Doc) (term : String) : Bool :=
  strIncludes (lowerStr d.title) (lowerStr term)
    || strIncludes (lowerStr d.summary) (lowerStr term)
    || strIncludes (lowerStr d.content) (lowerStr term)
    || d.tags.contains term

/-- The document-type synonym table of the enhanced strategy. -/
def docTypeMapping (t : String) : String :=
  if lowerStr t = "rfp" then ("RFP")
  else if lowerStr t = "proposal" then ("Proposal")
  else if lowerStr t = "case study" then ("Case Study")
  else if lowerStr t = "win loss" then ("Win/Loss Analysis")
  else t

/-- The term clause of the enhanced strategy's query builder: restrict by
the disjunctive pattern when search terms exist. -/
def enhancedTermFilter (a : NLPAnalysis) (rows : List Doc) : List Doc :=
  if (searchTermsOf a).length > 0 then
    rows.filter (fun d => (searchTermsOf a).any (fun t => termMatchesDoc d t))
  else rows

/-- The industries clause of the enhanced strategy's query builder:
restrict when the filter is present and non-empty. -/
def enhancedIndustryFilter (a : NLPAnalysis) (rows : List Doc) : List Doc :=
  match a.searchFilters.industries with
  | some inds =>
    if inds.length > 0 then rows.filter (fun d => inds.contains d.industry) else rows
  | none => rows

/-- The document-types clause of the enhanced strategy's query builder:
restrict to the synonym-mapped types when present and non-empty. -/
def enhancedTypeFilter (a : NLPAnalysis) (rows : List Doc) : List Doc :=
  match a.searchFilters.documentTypes with
  | some dts =>
    if dts.length > 0 then
      rows.filter (fun d => (dts.map docTypeMapping).contains d.dtype)
    else rows
  | none => rows

/-- The rows produced by the enhanced strategy's store query: the
caller's visible rows through the three clauses, limited to 8. -/
def enhancedQueryRows (uid : Nat) (db : List Doc) (a : NLPAnalysis) : List Doc :=
  (enhancedTypeFilter a
    (enhancedIndustryFilter a
      (enhancedTermFilter a (visibleDocs uid db)))).take 8

/-- Step 3 of `serve`: the NLP-enhanced keyword strategy, attempted
exactly when the current result set is empty and an analysis object is
present. A store error leaves the state unchanged apart from the attempt
flag; otherwise the method becomes `enhanced_text` (even for zero rows)
and the confidence is recomputed only when rows were returned. -/
def enhancedStep (uid : Nat) (db : List Doc) (analysis : Option NLPAnalysis)
    (enhancedError : Bool) (st : SearchState) : SearchState :=
  if st.documents.length = 0 then
    match analysis with
    | some a =>
      let st1 := { st with ranEnhanced := true }
      if enhancedError then st1
      else
        let docs := enhancedQueryRows uid db a
        { st1 with
          documents := docs
          sims := []
          searchMethod := "enhanced_text"
          confidence :=
            if docs.length > 0 then enhancedConfidence docs.length a.confidence
            else st1.confidence }
    | none => st
  else st

/-- The rows produced by the basic strategy's store query: the caller's
visible rows whose title, summary or content contains the whole raw
message, limited to 5. -/
def basicQueryRows (uid : Nat) (db : List Doc) (message : String) : List Doc :=
  let visible := visibleDocs uid db
  (visible.filter
    (fun d => strIncludes (lowerStr d.title) (lowerStr message)
      || strIncludes (lowerStr d.summary) (lowerStr message)
      || strIncludes (lowerStr d.content) (lowerStr message))).take 5

/-- Step 4 of `serve`: the basic keyword strategy, attempted exactly when
the current result set is still empty. A store error leaves the state
unchanged apart from the attempt flag; otherwise the method becomes
`basic_text` (even for zero rows) and the confidence is recomputed only
when rows were returned. -/
def basicStep (uid : Nat) (db : List Doc) (message : String)
    (basicError : Bool) (st : SearchState) : SearchState :=
  if st.documents.length = 0 then
    let st1 := { st with ranBasic := true }
    if basicError then st1
    else
      let docs := basicQueryRows uid db message
      { st1 with
        documents := docs
        sims := []
        searchMethod := "basic_text"
        confidence :=
          if docs.length > 0 then basicConfidence docs.length
          else st1.confidence }
  else st

/-- The whole cascading retrieval of `serve`: vector search, then the
enhanced keyword strategy, then the basic keyword strategy. -/
def retrieve (uid : Nat) (db : List Doc) (dist : Doc → ℚ)
    (embedOk vectorError enhancedError basicError : Bool)
    (analysis : Option NLPAnalysis) (message : String) : SearchState :=
  basicStep uid db message basicError
    (enhancedStep uid db analysis enhancedError
      (vectorStep uid db dist embedOk vectorError))

/-! ## Lemmas about the intent classifier's fold -/

/-- A fold step never updates when the intent's confidence does not
exceed the current best. -/
lemma foldl_classifyStep_noUpdate (lt : String) (l : List (String × List String))
    (b : String × ℚ) (h : ∀ ip ∈ l, intentConfidence lt ip ≤ b.2) :
    l.foldl (classifyStep lt) b = b := by
  induction l with
  | nil => rfl
  | cons e l ih =>
    have he := h e (by simp)
    have : classifyStep lt b e = b := by
      unfold classifyStep
      rw [if_neg (not_lt.mpr he)]
    rw [List.foldl_cons, this]
    exact ih (fun ip hip => h ip (by simp [hip]))

/-- When exactly one entry's confidence exceeds the starting default and
every other entry has confidence zero, the fold lands on that entry. -/
lemma foldl_classifyStep_unique (lt : String) (l1 l2 : List (String × List String))
    (e : String × List String)
    (h1 : ∀ ip ∈ l1, intentConfidence lt ip = 0)
    (h2 : ∀ ip ∈ l2, intentConfidence lt ip = 0)
    (he : 3/10 < intentConfidence lt e) :
    (l1 ++ e :: l2).foldl (classifyStep lt) ("general_question", 3/10)
      = (e.1, intentConfidence lt e) := by
  rw [List.foldl_append]
  rw [foldl_classifyStep_noUpdate lt l1 _ (fun ip hip => by
    rw [h1 ip hip]; norm_num)]
  rw [List.foldl_cons]
  have hstep : classifyStep lt ("general_question", 3/10) e = (e.1, intentConfidence lt e) := by
    unfold classifyStep
    rw [if_pos he]
  rw [hstep]
  exact foldl_classifyStep_noUpdate lt l2 _ (fun ip hip => by
    rw [h2 ip hip]
    exact le_of_lt (lt_trans (by norm_num) he))

/-! ## Claims about the intent classifier -/

/-- C7: a query whose lower-cased form contains no trigger phrase of any
intent yields `general_question` with confidence exactly 0.3. -/
theorem classifyIntent_no_phrase (text : String)
    (h : ∀ ip ∈ intentPatterns, ∀ p ∈ ip.2, strIncludes (lowerStr text) p = false) :
    classifyIntent text = ("general_question", 3/10) := by
  unfold classifyIntent
  apply foldl_classifyStep_noUpdate
  intro ip hip
  have hcount : countMatches (lowerStr text) ip.2 = 0 := by
    unfold countMatches
    rw [List.length_eq_zero]
    rw [List.filter_eq_nil_iff]
    intro p hp
    simp [h ip hip p hp]
  unfold intentConfidence
  rw [hcount]
  norm_num

/-- C7 witness: the query `zzz` matches no trigger phrase and is
classified as `general_question` at confidence 0.3. -/
theorem classifyIntent_no_phrase_witness :
    classifyIntent ("zzz") = ("general_question", 3/10) :=
  classifyIntent_no_phrase ("zzz") (by decide)

/-- C3 counterexample: the query `what is` contains a trigger phrase of
exactly one intent (`information_retrieval`, one of its ten phrases) and
none of any other intent, yet the classifier returns `general_question`
at confidence 0.3, which also exceeds the phrase-match ratio 1/10. -/
theorem classifyIntent_unique_counterexample :
    (intentPatterns.map (fun ip => countMatches (lowerStr ("what is")) ip.2))
        = [1, 0, 0, 0, 0]
      ∧ classifyIntent ("what is") = ("general_question", 3/10)
      ∧ (classifyIntent ("what is")).1 ≠ "information_retrieval"
      ∧ ¬ ((classifyIntent ("what is")).2 ≤ 1/10) := by
  have h0 : countMatches (lowerStr ("what is"))
      (["what is", "tell me about", "explain", "describe", "overview of",
        "information about", "details on", "help me understand", "how does",
        "what are the benefits"]) = 1 := by decide
  have h1 : countMatches (lowerStr ("what is"))
      (["compare", "versus", "vs", "difference between", "better than",
        "similar to", "alternatives to", "choose between", "which is"]) = 0 := by decide
  have h2 : countMatches (lowerStr ("what is"))
      (["summary", "summarize", "key points", "main points", "brief overview",
        "highlights", "in short", "tldr"]) = 0 := by decide
  have h3 : countMatches (lowerStr ("what is"))
      (["find documents", "search for", "look for", "show me documents",
        "examples of", "case studies about", "proposals for"]) = 0 := by decide
  have h4 : countMatches (lowerStr ("what is"))
      (["how to", "best practices", "recommendations", "advice", "guidance",
        "should i", "can you help"]) = 0 := by decide
  have heval : classifyIntent ("what is") = ("general_question", 3/10) := by
    unfold classifyIntent
    apply foldl_classifyStep_noUpdate
    intro ip hip
    fin_cases hip <;> unfold intentConfidence <;>
      simp only [h0, h1, h2, h3, h4] <;> norm_num
  refine ⟨by decide, heval, ?_, ?_⟩
  · rw [heval]; decide
  · rw [heval]; norm_num

/-- C3 amended: when the lower-cased query contains a trigger phrase of
exactly one intent, none of any other intent, and that intent's
phrase-match ratio exceeds the 0.3 floor, the classifier returns that
intent with a confidence that is positive and equal to (hence at most)
the phrase-match ratio. -/
theorem classifyIntent_unique_above_floor (text : String)
    (name : String) (pats : List String)
    (hmem : (name, pats) ∈ intentPatterns)
    (hothers : ∀ ip ∈ intentPatterns, ip.2 ≠ pats →
      countMatches (lowerStr text) ip.2 = 0)
    (hfloor : 3/10 < intentConfidence (lowerStr text) (name, pats)) :
    classifyIntent text = (name, intentConfidence (lowerStr text) (name, pats))
      ∧ 0 < (classifyIntent text).2
      ∧ (classifyIntent text).2 ≤ intentConfidence (lowerStr text) (name, pats) := by
  have hzero : ∀ ip ∈ intentPatterns, ip.2 ≠ pats →
      intentConfidence (lowerStr text) ip = 0 := by
    intro ip hip hne
    unfold intentConfidence
    rw [hothers ip hip hne]
    norm_num
  have heval : classifyIntent text = (name, intentConfidence (lowerStr text) (name, pats)) := by
    unfold classifyIntent
    fin_cases hmem
    · exact foldl_classifyStep_unique _ (intentPatterns.take 0) (intentPatterns.drop 1) _
        (by intro ip hip; fin_cases hip)
        (by intro ip hip; fin_cases hip <;> exact hzero _ (by decide) (by decide)) hfloor
    · exact foldl_classifyStep_unique _ (intentPatterns.take 1) (intentPatterns.drop 2) _
        (by intro ip hip; fin_cases hip <;> exact hzero _ (by decide) (by decide))
        (by intro ip hip; fin_cases hip <;> exact hzero _ (by decide) (by decide)) hfloor
    · exact foldl_classifyStep_unique _ (intentPatterns.take 2) (intentPatterns.drop 3) _
        (by intro ip hip; fin_cases hip <;> exact hzero _ (by decide) (by decide))
        (by intro ip hip; fin_cases hip <;> exact hzero _ (by decide) (by decide)) hfloor
    · exact foldl_classifyStep_unique _ (intentPatterns.take 3) (intentPatterns.drop 4) _
        (by intro ip hip; fin_cases hip <;> exact hzero _ (by decide) (by decide))
        (by intro ip hip; fin_cases hip <;> exact hzero _ (by decide) (by decide)) hfloor
    · exact foldl_classifyStep_unique _ (intentPatterns.take 4) (intentPatterns.drop 5) _
        (by intro ip hip; fin_cases hip <;> exact hzero _ (by decide) (by decide))
        (by intro ip hip; fin_cases hip) hfloor
  refine ⟨heval, ?_, ?_⟩
  · rw [heval]
    exact lt_trans (by norm_num) hfloor
  · rw [heval]

/-- C3 amended witness: `compare versus vs` matches three of the nine
comparison phrases and no other intent, the ratio 1/3 exceeds the floor,
and the classifier returns `comparison` at exactly that ratio. -/
theorem classifyIntent_unique_above_floor_witness :
    classifyIntent ("compare versus vs")
        = ("comparison", intentConfidence (lowerStr ("compare versus vs"))
            ("comparison",
             ["compare", "versus", "vs", "difference between", "better than",
              "similar to", "alternatives to", "choose between", "which is"]))
      ∧ 0 < (classifyIntent ("compare versus vs")).2
      ∧ (classifyIntent ("compare versus vs")).2
          ≤ intentConfidence (lowerStr ("compare versus vs"))
              ("comparison",
               ["compare", "versus", "vs", "difference between", "better than",
                "similar to", "alternatives to", "choose between", "which is"]) :=
  classifyIntent_unique_above_floor ("compare versus vs") ("comparison")
    (["compare", "versus", "vs", "difference between", "better than",
      "similar to", "alternatives to", "choose between", "which is"])
    (by decide) (by decide)
    (by
      unfold intentConfidence
      norm_num [show countMatches (lowerStr ("compare versus vs"))
        (["compare", "versus", "vs", "difference between", "better than",
          "similar to", "alternatives to", "choose between", "which is"]) = 3
        from by decide])

/-! ## Claims about the query analyzer's boundary -/

/-- C9: the query analyzer is total at its boundary: for every input text
and every delegate outcome the body returns an analysis and never an
error; on a non-success status, a parse failure, or a rejected fetch, the
returned analysis is the heuristic pipeline's result. -/
theorem performAdvancedNLP_total (text : String) (outcome : DelegateOutcome) :
    (∃ a, performAdvancedNLP text outcome = Except.ok a)
      ∧ (outcome = .httpNotOk →
          performAdvancedNLP text outcome = Except.ok (fallbackAnalysis text))
      ∧ (outcome = .parseFailed →
          performAdvancedNLP text outcome = Except.ok (fallbackAnalysis text))
      ∧ (∀ e, outcome = .fetchFailed e →
          performAdvancedNLP text outcome = Except.ok (fallbackAnalysis text)) := by
  cases outcome <;>
    simp [performAdvancedNLP, advancedNLPTry]

/-- C9 witness: at the concrete query `q` with a non-success delegate
status, the analyzer returns the heuristic analysis. -/
theorem performAdvancedNLP_total_witness :
    performAdvancedNLP ("q") DelegateOutcome.httpNotOk
      = Except.ok (fallbackAnalysis ("q")) :=
  (performAdvancedNLP_total ("q") DelegateOutcome.httpNotOk).2.1 rfl

/-- C10: defaulting in the delegate path applies to every falsy field,
not only absent ones: a parsed reply carrying confidence 0 yields
confidence 0.7, and one carrying an empty-string intent yields
`general_question`. -/
theorem performAdvancedNLP_falsy_defaults (text : String) (j : AIAnalysisJson)
    (hconf : j.confidence = some 0) (hintent : j.intent = some ("")) :
    performAdvancedNLP text (.parsed j) = Except.ok (aiToAnalysis j)
      ∧ (aiToAnalysis j).confidence = 7/10
      ∧ (aiToAnalysis j).intent = "general_question" := by
  refine ⟨by simp [performAdvancedNLP, advancedNLPTry], ?_, ?_⟩
  · simp [aiToAnalysis, jsOrNum, hconf]
  · simp [aiToAnalysis, jsOrString, hintent]

/-- C10 witness: a concrete parsed reply with confidence 0 and empty
intent is defaulted to confidence 0.7 and intent `general_question`. -/
theorem performAdvancedNLP_falsy_defaults_witness :
    performAdvancedNLP ("q")
        (.parsed { intent := some (""), confidence := some 0, keywords := some []
                   entities := none, industries := none, technologies := none
                   documentTypes := none })
        = Except.ok (aiToAnalysis
            { intent := some (""), confidence := some 0, keywords := some []
              entities := none, industries := none, technologies := none
              documentTypes := none })
      ∧ (aiToAnalysis
            { intent := some (""), confidence := some 0, keywords := some []
              entities := none, industries := none, technologies := none
              documentTypes := none }).confidence = 7/10
      ∧ (aiToAnalysis
            { intent := some (""), confidence := some 0, keywords := some []
              entities := none, industries := none, technologies := none
              documentTypes := none }).intent = "general_question" :=
  performAdvancedNLP_falsy_defaults ("q") _ rfl rfl

/-! ## Ownership lemmas for the three store queries -/

/-- Rows visible under the ownership policy belong to the caller. -/
lemma mem_visibleDocs (uid : Nat) (db : List Doc) (d : Doc)
    (h : d ∈ visibleDocs uid db) : d.user_id = some uid := by
  unfold visibleDocs at h
  have h2 := (List.mem_filter.mp h).2
  simpa using h2

/-- The term clause only narrows the row set. -/
lemma enhancedTermFilter_subset (a : NLPAnalysis) (rows : List Doc) :
    enhancedTermFilter a rows ⊆ rows := by
  unfold enhancedTermFilter
  split
  · exact List.filter_subset' rows
  · exact fun x h => h

/-- The industries clause only narrows the row set. -/
lemma enhancedIndustryFilter_subset (a : NLPAnalysis) (rows : List Doc) :
    enhancedIndustryFilter a rows ⊆ rows := by
  unfold enhancedIndustryFilter
  split
  · split
    · exact List.filter_subset' rows
    · exact fun x h => h
  · exact fun x h => h

/-- The document-types clause only narrows the row set. -/
lemma enhancedTypeFilter_subset (a : NLPAnalysis) (rows : List Doc) :
    enhancedTypeFilter a rows ⊆ rows := by
  unfold enhancedTypeFilter
  split
  · split
    · exact List.filter_subset' rows
    · exact fun x h => h
  · exact fun x h => h

/-- Every row of the enhanced strategy's query belongs to the caller. -/
lemma enhancedQueryRows_owner (uid : Nat) (db : List Doc) (a : NLPAnalysis) (d : Doc)
    (h : d ∈ enhancedQueryRows uid db a) : d.user_id = some uid := by
  unfold enhancedQueryRows at h
  exact mem_visibleDocs uid db d
    (enhancedTermFilter_subset _ _
      (enhancedIndustryFilter_subset _ _
        (enhancedTypeFilter_subset _ _ (List.take_subset _ _ h))))

/-- Every row of the basic strategy's query belongs to the caller. -/
lemma basicQueryRows_owner (uid : Nat) (db : List Doc) (message : String) (d : Doc)
    (h : d ∈ basicQueryRows uid db message) : d.user_id = some uid := by
  unfold basicQueryRows at h
  exact mem_visibleDocs uid db d
    (List.filter_subset' _ (List.take_subset _ _ h))

/-- Every row returned by the similarity RPC belongs to the caller: the
SQL body filters on `user_id = auth.uid()`. -/
lemma search_documents_owner (db : List Doc) (uid : Nat) (dist : Doc → ℚ)
    (th : ℚ) (k : Nat) (d : Doc) (s : ℚ)
    (h : (d, s) ∈ search_documents_by_similarity db uid dist th k) :
    d.user_id = some uid := by
  unfold search_documents_by_similarity at h
  replace h := List.take_subset _ _ h
  rw [List.mem_insertionSort] at h
  obtain ⟨d', hd', heq⟩ := List.mem_map.mp h
  obtain ⟨-, hpred⟩ := List.mem_filter.mp hd'
  have hd'd : d' = d := congrArg Prod.fst heq
  subst hd'd
  simp only [Bool.and_eq_true, beq_iff_eq] at hpred
  exact hpred.1.2

/-- The vector step only returns rows of the caller. -/
lemma vectorStep_owner (uid : Nat) (db : List Doc) (dist : Doc → ℚ)
    (eo ve : Bool) (d : Doc)
    (h : d ∈ (vectorStep uid db dist eo ve).documents) : d.user_id = some uid := by
  unfold vectorStep at h
  split at h
  · split at h
    · simp at h
    · simp only at h
      obtain ⟨⟨d', s⟩, hmem, heq⟩ := List.mem_map.mp h
      have : d' = d := heq
      subst this
      exact search_documents_owner db uid dist (3/10) 8 d' s hmem
  · simp at h

/-- The enhanced step preserves caller ownership of the result set. -/
lemma enhancedStep_owner (uid : Nat) (db : List Doc)
    (analysis : Option NLPAnalysis) (ee : Bool) (st : SearchState)
    (hst : ∀ d ∈ st.documents, d.user_id = some uid) (d : Doc)
    (h : d ∈ (enhancedStep uid db analysis ee st).documents) :
    d.user_id = some uid := by
  unfold enhancedStep at h
  split at h
  · split at h
    · split at h
      · exact hst d h
      · simp only at h
        exact enhancedQueryRows_owner uid db _ d h
    · exact hst d h
  · exact hst d h

/-- The basic step preserves caller ownership of the result set. -/
lemma basicStep_owner (uid : Nat) (db : List Doc) (message : String)
    (be : Bool) (st : SearchState)
    (hst : ∀ d ∈ st.documents, d.user_id = some uid) (d : Doc)
    (h : d ∈ (basicStep uid db message be st).documents) :
    d.user_id = some uid := by
  unfold basicStep at h
  split at h
  · split at h
    · exact hst d h
    · simp only at h
      exact basicQueryRows_owner uid db message d h
  · exact hst d h

/-! ## Claims about the retrieval engine -/

/-- C1: a retrieval call for the authenticated user returns no document
of any other user, whatever strategy answered: every returned row is
owned by the caller, so for a different user the result set carries none
of their documents. -/
theorem retrieval_never_crosses_users (uid B : Nat) (db : List Doc)
    (dist : Doc → ℚ) (eo ve ee be : Bool) (analysis : Option NLPAnalysis)
    (message : String) (hne : B ≠ uid) :
    ∀ d ∈ (retrieve uid db dist eo ve ee be analysis message).documents,
      d.user_id ≠ some B := by
  intro d hd hB
  have howner : d.user_id = some uid := by
    unfold retrieve at hd
    exact basicStep_owner uid db message be _
      (fun x hx => enhancedStep_owner uid db analysis ee _
        (fun y hy => vectorStep_owner uid db dist eo ve y hy) x hx) d hd
  rw [howner] at hB
  exact hne (Option.some.inj hB.symm)

/-! ## Step-equation lemmas for the pipeline -/

/-- The initial search state of `serve`. -/
def initialState : SearchState :=
  { documents := [], sims := [], searchMethod := "fallback"
    confidence := 3/10, ranEnhanced := false, ranBasic := false }

/-- A failed embedding call leaves the initial state. -/
lemma vectorStep_noEmbed (uid : Nat) (db : List Doc) (dist : Doc → ℚ) (ve : Bool) :
    vectorStep uid db dist false ve = initialState := by
  unfold vectorStep initialState
  simp

/-- A successful embedding call and store reply produce the vector
state. -/
lemma vectorStep_ok (uid : Nat) (db : List Doc) (dist : Doc → ℚ) :
    vectorStep uid db dist true false =
      { documents := (search_documents_by_similarity db uid dist (3/10) 8).map Prod.fst
        sims := (search_documents_by_similarity db uid dist (3/10) 8).map Prod.snd
        searchMethod := "vector"
        confidence :=
          if ((search_documents_by_similarity db uid dist (3/10) 8).map Prod.fst).length > 0
          then vectorConfidence ((search_documents_by_similarity db uid dist (3/10) 8).map Prod.snd)
          else 3/10
        ranEnhanced := false, ranBasic := false } := by
  unfold vectorStep
  simp

/-- The enhanced step is skipped over a non-empty result set. -/
lemma enhancedStep_skip (uid : Nat) (db : List Doc) (analysis : Option NLPAnalysis)
    (ee : Bool) (st : SearchState) (h : st.documents.length ≠ 0) :
    enhancedStep uid db analysis ee st = st := by
  unfold enhancedStep
  rw [if_neg h]

/-- The enhanced step is skipped when no analysis is present. -/
lemma enhancedStep_none (uid : Nat) (db : List Doc) (ee : Bool) (st : SearchState) :
    enhancedStep uid db none ee st = st := by
  unfold enhancedStep
  split
  · rfl
  · rfl

/-- The enhanced step over an empty result set with an analysis and no
store error runs the enhanced query. -/
lemma enhancedStep_run (uid : Nat) (db : List Doc) (a : NLPAnalysis)
    (st : SearchState) (h : st.documents.length = 0) :
    enhancedStep uid db (some a) false st =
      { st with
        ranEnhanced := true
        documents := enhancedQueryRows uid db a
        sims := []
        searchMethod := "enhanced_text"
        confidence :=
          if (enhancedQueryRows uid db a).length > 0
          then enhancedConfidence (enhancedQueryRows uid db a).length a.confidence
          else st.confidence } := by
  unfold enhancedStep
  rw [if_pos h]
  simp

/-- The basic step is skipped over a non-empty result set. -/
lemma basicStep_skip (uid : Nat) (db : List Doc) (message : String)
    (be : Bool) (st : SearchState) (h : st.documents.length ≠ 0) :
    basicStep uid db message be st = st := by
  unfold basicStep
  rw [if_neg h]

/-- The basic step over an empty result set and no store error runs the
basic query. -/
lemma basicStep_run (uid : Nat) (db : List Doc) (message : String)
    (st : SearchState) (h : st.documents.length = 0) :
    basicStep uid db message false st =
      { st with
        ranBasic := true
        documents := basicQueryRows uid db message
        sims := []
        searchMethod := "basic_text"
        confidence :=
          if (basicQueryRows uid db message).length > 0
          then basicConfidence (basicQueryRows uid db message).length
          else st.confidence } := by
  unfold basicStep
  rw [if_pos h]
  simp

/-- C2: when the vector strategy returns at least one document above the
threshold, neither fallback strategy is attempted and the result is the
vector strategy's. -/
theorem vector_hit_skips_fallbacks (uid : Nat) (db : List Doc) (dist : Doc → ℚ)
    (ee be : Bool) (analysis : Option NLPAnalysis) (message : String)
    (h : search_documents_by_similarity db uid dist (3/10) 8 ≠ []) :
    (retrieve uid db dist true false ee be analysis message).ranEnhanced = false
      ∧ (retrieve uid db dist true false ee be analysis message).ranBasic = false
      ∧ (retrieve uid db dist true false ee be analysis message).searchMethod = "vector"
      ∧ (retrieve uid db dist true false ee be analysis message).documents ≠ [] := by
  have hlen : (vectorStep uid db dist true false).documents.length ≠ 0 := by
    rw [vectorStep_ok]
    simpa [List.length_eq_zero] using h
  have hret : retrieve uid db dist true false ee be analysis message
      = vectorStep uid db dist true false := by
    unfold retrieve
    rw [enhancedStep_skip uid db analysis ee _ hlen, basicStep_skip uid db message be _ hlen]
  rw [hret, vectorStep_ok]
  refine ⟨rfl, rfl, rfl, ?_⟩
  simpa using h

/-! ## Concrete sample data for the witnesses -/

/-- A document of user 1 carrying an embedding. -/
def sampleOwnDoc : Doc :=
  { id := 1, user_id := some 1, title := "alpha", dtype := "RFP", client := "c"
    industry := "healthcare", geography := "g", year := "2024", summary := "s"
    content := "cloud migration notes", tags := [], embeddings := some [] }

/-- A document of user 2 carrying an embedding. -/
def sampleOtherDoc : Doc :=
  { id := 2, user_id := some 2, title := "alpha", dtype := "RFP", client := "c"
    industry := "healthcare", geography := "g", year := "2024", summary := "s"
    content := "cloud migration notes", tags := [], embeddings := some [] }

/-- C2 witness: with one owned document at distance 0 the vector strategy
answers and no fallback runs. -/
theorem vector_hit_skips_fallbacks_witness :
    (retrieve 1 [sampleOwnDoc] (fun _ => 0) true false false false none ("x")).ranEnhanced = false
      ∧ (retrieve 1 [sampleOwnDoc] (fun _ => 0) true false false false none ("x")).ranBasic = false
      ∧ (retrieve 1 [sampleOwnDoc] (fun _ => 0) true false false false none ("x")).searchMethod = "vector"
      ∧ (retrieve 1 [sampleOwnDoc] (fun _ => 0) true false false false none ("x")).documents ≠ [] :=
  vector_hit_skips_fallbacks 1 [sampleOwnDoc] (fun _ => 0) false false none ("x") (by
    unfold search_documents_by_similarity
    simp only [List.filter, sampleOwnDoc]
    norm_num [List.insertionSort, List.orderedInsert])

/-- C1 witness: with a more-similar document of user 2 in the store, the
retrieval result for user 1 does not contain it. -/
theorem retrieval_never_crosses_users_witness :
    sampleOtherDoc ∉ (retrieve 1 [sampleOwnDoc, sampleOtherDoc] (fun _ => 0)
      true false false false none ("x")).documents :=
  fun hmem =>
    retrieval_never_crosses_users 1 2 [sampleOwnDoc, sampleOtherDoc] (fun _ => 0)
      true false false false none ("x") (by decide) sampleOtherDoc hmem rfl

/-- The enhanced query returns at most 8 rows. -/
lemma enhancedQueryRows_length_le (uid : Nat) (db : List Doc) (a : NLPAnalysis) :
    (enhancedQueryRows uid db a).length ≤ 8 := by
  unfold enhancedQueryRows
  exact List.length_take_le 8 _

/-- C4 amended: when the enhanced strategy answers with n documents for
an analysis of confidence c, the reported confidence is exactly
`0.7 + n * 0.03 + c * 0.15`, with no upper clamp; with the caps n ≤ 8 and
c ≤ 1 it is bounded by 1.09, not by 0.95. -/
theorem enhanced_confidence_formula (uid : Nat) (db : List Doc) (dist : Doc → ℚ)
    (eo ve be : Bool) (a : NLPAnalysis) (message : String)
    (hempty : (vectorStep uid db dist eo ve).documents = [])
    (hpos : (enhancedQueryRows uid db a).length ≠ 0) :
    (retrieve uid db dist eo ve false be (some a) message).confidence
        = enhancedConfidence (enhancedQueryRows uid db a).length a.confidence
      ∧ (retrieve uid db dist eo ve false be (some a) message).searchMethod
          = "enhanced_text"
      ∧ (a.confidence ≤ 1 →
          (retrieve uid db dist eo ve false be (some a) message).confidence
            ≤ 109/100) := by
  have h0 : (vectorStep uid db dist eo ve).documents.length = 0 := by
    rw [hempty]; rfl
  have hstep := enhancedStep_run uid db a (vectorStep uid db dist eo ve) h0
  have hne : (enhancedStep uid db (some a) false
      (vectorStep uid db dist eo ve)).documents.length ≠ 0 := by
    rw [hstep]
    simpa using hpos
  have hr : retrieve uid db dist eo ve false be (some a) message
      = enhancedStep uid db (some a) false (vectorStep uid db dist eo ve) := by
    unfold retrieve
    rw [basicStep_skip uid db message be _ hne]
  have hgt : (enhancedQueryRows uid db a).length > 0 := Nat.pos_of_ne_zero hpos
  have hconf : (retrieve uid db dist eo ve false be (some a) message).confidence
      = enhancedConfidence (enhancedQueryRows uid db a).length a.confidence := by
    rw [hr, hstep]
    simp only
    rw [if_pos hgt]
  refine ⟨hconf, ?_, ?_⟩
  · rw [hr, hstep]
  · intro hc
    rw [hconf]
    unfold enhancedConfidence
    have hn : ((enhancedQueryRows uid db a).length : ℚ) ≤ 8 := by
      exact_mod_cast enhancedQueryRows_length_le uid db a
    have l1 : ((enhancedQueryRows uid db a).length : ℚ) * (3/100) ≤ 8 * (3/100) := by
      gcongr
    have l2 : a.confidence * (15/100) ≤ 1 * (15/100) := by
      gcongr
    linarith

/-- A strongly matching sample document of user 1 (no embedding). -/
def sampleMatchingDoc (i : Nat) : Doc :=
  { id := i, user_id := some 1, title := "abc", dtype := "RFP", client := "c"
    industry := "h", geography := "g", year := "2024", summary := "s"
    content := "t", tags := [], embeddings := none }

/-- An analysis of full confidence with one matching keyword. -/
def sampleConfidentAnalysis : NLPAnalysis :=
  { intent := "specific_search", confidence := 1, keywords := ["abc"]
    entities := [], queryType := "specific_search"
    searchFilters :=
      { industries := none, clients := none, documentTypes := none
        technologies := none, timeframe := none } }

/-- C4 counterexample: with eight matching documents and an analysis of
confidence 1, the reported confidence is 1.09, which exceeds the claimed
bound 0.95 (and even 1): the code applies no clamp. -/
theorem enhanced_confidence_counterexample :
    (retrieve 1 ((List.range 8).map sampleMatchingDoc) (fun _ => 0)
        false false false false (some sampleConfidentAnalysis) ("x")).confidence
        = 109/100
      ∧ ¬ ((retrieve 1 ((List.range 8).map sampleMatchingDoc) (fun _ => 0)
          false false false false (some sampleConfidentAnalysis) ("x")).confidence
            ≤ 95/100)
      ∧ (retrieve 1 ((List.range 8).map sampleMatchingDoc) (fun _ => 0)
          false false false false (some sampleConfidentAnalysis) ("x")).searchMethod
          = "enhanced_text" := by
  have h0 : (vectorStep 1 ((List.range 8).map sampleMatchingDoc)
      (fun _ => 0) false false).documents.length = 0 := by
    rw [vectorStep_noEmbed]; rfl
  have hstep := enhancedStep_run 1 ((List.range 8).map sampleMatchingDoc)
    sampleConfidentAnalysis _ h0
  have h8 : (enhancedQueryRows 1 ((List.range 8).map sampleMatchingDoc)
      sampleConfidentAnalysis).length = 8 := by decide
  have hne : (enhancedStep 1 ((List.range 8).map sampleMatchingDoc)
      (some sampleConfidentAnalysis) false
      (vectorStep 1 ((List.range 8).map sampleMatchingDoc) (fun _ => 0) false false)).documents.length
      ≠ 0 := by
    rw [hstep]
    simp only
    rw [h8]
    norm_num
  have hr : retrieve 1 ((List.range 8).map sampleMatchingDoc) (fun _ => 0)
      false false false false (some sampleConfidentAnalysis) ("x")
      = enhancedStep 1 ((List.range 8).map sampleMatchingDoc)
          (some sampleConfidentAnalysis) false
          (vectorStep 1 ((List.range 8).map sampleMatchingDoc) (fun _ => 0) false false) := by
    unfold retrieve
    rw [basicStep_skip _ _ _ _ _ hne]
  have hconf : (retrieve 1 ((List.range 8).map sampleMatchingDoc) (fun _ => 0)
      false false false false (some sampleConfidentAnalysis) ("x")).confidence = 109/100 := by
    rw [hr, hstep]
    simp only
    rw [h8]
    norm_num [enhancedConfidence, sampleConfidentAnalysis]
  refine ⟨hconf, ?_, ?_⟩
  · rw [hconf]
    norm_num
  · rw [hr, hstep]

/-- C4 amended witness: a single matching document and the same analysis
give confidence `0.7 + 0.03 + 0.15 = 0.88`, within the 1.09 bound. -/
theorem enhanced_confidence_formula_witness :
    (retrieve 1 [sampleMatchingDoc 0] (fun _ => 0) false false false false
        (some sampleConfidentAnalysis) ("x")).confidence
        = enhancedConfidence
            (enhancedQueryRows 1 [sampleMatchingDoc 0] sampleConfidentAnalysis).length
            sampleConfidentAnalysis.confidence
      ∧ (retrieve 1 [sampleMatchingDoc 0] (fun _ => 0) false false false false
          (some sampleConfidentAnalysis) ("x")).searchMethod = "enhanced_text"
      ∧ (sampleConfidentAnalysis.confidence ≤ 1 →
          (retrieve 1 [sampleMatchingDoc 0] (fun _ => 0) false false false false
            (some sampleConfidentAnalysis) ("x")).confidence ≤ 109/100) :=
  enhanced_confidence_formula 1 [sampleMatchingDoc 0] (fun _ => 0) false false false
    sampleConfidentAnalysis ("x")
    (by rw [vectorStep_noEmbed]; rfl)
    (by decide)

/-- C5 amended: when all three strategies execute and return zero rows,
the result is an empty set at the base confidence 0.3, but the method tag
is `basic_text` — the code never produces a `none` tag. -/
theorem all_strategies_empty (uid : Nat) (db : List Doc) (dist : Doc → ℚ)
    (analysis : Option NLPAnalysis) (message : String)
    (hv : search_documents_by_similarity db uid dist (3/10) 8 = [])
    (he : ∀ a, analysis = some a → enhancedQueryRows uid db a = [])
    (hb : basicQueryRows uid db message = []) :
    (retrieve uid db dist true false false false analysis message).documents = []
      ∧ (retrieve uid db dist true false false false analysis message).searchMethod
          = "basic_text"
      ∧ (retrieve uid db dist true false false false analysis message).confidence
          = 3/10 := by
  have hvec : (vectorStep uid db dist true false).documents = []
      ∧ (vectorStep uid db dist true false).confidence = 3/10 := by
    rw [vectorStep_ok]
    simp [hv]
  have h0 : (vectorStep uid db dist true false).documents.length = 0 := by
    rw [hvec.1]; rfl
  have hmid : (enhancedStep uid db analysis false
        (vectorStep uid db dist true false)).documents = []
      ∧ (enhancedStep uid db analysis false
        (vectorStep uid db dist true false)).confidence = 3/10 := by
    cases analysis with
    | none =>
      rw [enhancedStep_none]
      exact hvec
    | some a =>
      rw [enhancedStep_run uid db a _ h0]
      simp only
      rw [he a rfl]
      simp [hvec.2]
  have hmid0 : (enhancedStep uid db analysis false
      (vectorStep uid db dist true false)).documents.length = 0 := by
    rw [hmid.1]; rfl
  unfold retrieve
  rw [basicStep_run uid db message _ hmid0]
  simp only
  rw [hb]
  simp [hmid.2]

/-- C5 counterexample: over an empty store every strategy returns zero
rows, the result is empty at confidence 0.3, but the method tag is
`basic_text`, not the claimed `none`. -/
theorem all_strategies_empty_counterexample :
    (retrieve 1 [] (fun _ => 0) true false false false
        (some sampleConfidentAnalysis) ("x")).documents = []
      ∧ (retrieve 1 [] (fun _ => 0) true false false false
          (some sampleConfidentAnalysis) ("x")).searchMethod = "basic_text"
      ∧ (retrieve 1 [] (fun _ => 0) true false false false
          (some sampleConfidentAnalysis) ("x")).searchMethod ≠ "none"
      ∧ (retrieve 1 [] (fun _ => 0) true false false false
          (some sampleConfidentAnalysis) ("x")).confidence = 3/10 :=
  ⟨by decide, by decide, by decide, rfl⟩

/-- C5 amended witness: the amended statement instantiated over the empty
store. -/
theorem all_strategies_empty_witness :
    (retrieve 1 [] (fun _ => 0) true false false false none ("x")).documents = []
      ∧ (retrieve 1 [] (fun _ => 0) true false false false none ("x")).searchMethod
          = "basic_text"
      ∧ (retrieve 1 [] (fun _ => 0) true false false false none ("x")).confidence
          = 3/10 :=
  all_strategies_empty 1 [] (fun _ => 0) none ("x") (by decide)
    (fun a ha => by cases ha) (by decide)

/-- The basic step never changes the enhanced-attempt flag. -/
lemma basicStep_ranEnhanced (uid : Nat) (db : List Doc) (message : String)
    (be : Bool) (st : SearchState) :
    (basicStep uid db message be st).ranEnhanced = st.ranEnhanced := by
  unfold basicStep
  split
  · split
    · rfl
    · rfl
  · rfl

/-- The vector step leaves the enhanced-attempt flag unset. -/
lemma vectorStep_ranEnhanced (uid : Nat) (db : List Doc) (dist : Doc → ℚ)
    (eo ve : Bool) : (vectorStep uid db dist eo ve).ranEnhanced = false := by
  unfold vectorStep
  split
  · split
    · rfl
    · rfl
  · rfl

/-- Over an empty result set with an analysis present, the enhanced
strategy is attempted whether or not the store errs. -/
lemma enhancedStep_attempted (uid : Nat) (db : List Doc) (a : NLPAnalysis)
    (ee : Bool) (st : SearchState) (h : st.documents.length = 0) :
    (enhancedStep uid db (some a) ee st).ranEnhanced = true := by
  unfold enhancedStep
  rw [if_pos h]
  cases ee
  · rfl
  · rfl

/-- C6 amended: the enhanced strategy is attempted exactly when the
vector strategy left no documents and an analysis object is present —
whether or not that analysis carries entities or keywords — and its
substring predicate is built from at most the top 3 keywords plus top 2
entities, every term longer than two characters. -/
theorem enhanced_gating_and_terms (uid : Nat) (db : List Doc) (dist : Doc → ℚ)
    (eo ve ee be : Bool) (analysis : Option NLPAnalysis) (message : String) :
    (retrieve uid db dist eo ve ee be analysis message).ranEnhanced
        = (decide ((vectorStep uid db dist eo ve).documents.length = 0)
            && analysis.isSome)
      ∧ ∀ (a : NLPAnalysis) (t : String), t ∈ searchTermsOf a →
          (t ∈ a.keywords.take 3 ∨ t ∈ a.entities.take 2) ∧ 2 < t.length := by
  constructor
  · unfold retrieve
    rw [basicStep_ranEnhanced]
    by_cases hlen : (vectorStep uid db dist eo ve).documents.length = 0
    · cases analysis with
      | none =>
        rw [enhancedStep_none, vectorStep_ranEnhanced]
        simp
      | some a =>
        rw [enhancedStep_attempted uid db a ee _ hlen]
        simp [hlen]
    · rw [enhancedStep_skip uid db analysis ee _ hlen, vectorStep_ranEnhanced]
      simp [hlen]
  · intro a t ht
    unfold searchTermsOf at ht
    obtain ⟨hmem, hlen⟩ := List.mem_filter.mp ht
    refine ⟨List.mem_append.mp hmem, ?_⟩
    simpa using hlen

/-- An analysis carrying no keywords and no entities. -/
def sampleEmptyAnalysis : NLPAnalysis :=
  { intent := "general_question", confidence := 1/2, keywords := []
    entities := [], queryType := "general_question"
    searchFilters :=
      { industries := none, clients := none, documentTypes := none
        technologies := none, timeframe := none } }

/-- C6 counterexample: the vector strategy ran and returned zero
documents (the only stored document has no embedding), the analysis
carries no entities and no keywords, yet the enhanced strategy is
attempted — and, with no term clause at all, even returns the user's
document. -/
theorem enhanced_gating_counterexample :
    sampleEmptyAnalysis.keywords = []
      ∧ sampleEmptyAnalysis.entities = []
      ∧ search_documents_by_similarity [sampleMatchingDoc 0] 1 (fun _ => 0) (3/10) 8 = []
      ∧ (retrieve 1 [sampleMatchingDoc 0] (fun _ => 0) true false false false
          (some sampleEmptyAnalysis) ("zzz")).ranEnhanced = true
      ∧ (retrieve 1 [sampleMatchingDoc 0] (fun _ => 0) true false false false
          (some sampleEmptyAnalysis) ("zzz")).searchMethod = "enhanced_text"
      ∧ (retrieve 1 [sampleMatchingDoc 0] (fun _ => 0) true false false false
          (some sampleEmptyAnalysis) ("zzz")).documents = [sampleMatchingDoc 0] :=
  ⟨rfl, rfl, by decide, by decide, by decide, by decide⟩

/-- C6 amended witness: the gating equation and the term-shape property
instantiated at concrete inputs. -/
theorem enhanced_gating_and_terms_witness :
    (retrieve 1 [sampleMatchingDoc 0] (fun _ => 0) true false false false
        (some sampleEmptyAnalysis) ("zzz")).ranEnhanced = true
      ∧ ("abc" ∈ sampleConfidentAnalysis.keywords.take 3
          ∨ "abc" ∈ sampleConfidentAnalysis.entities.take 2)
      ∧ 2 < ("abc").length := by
  have h := enhanced_gating_and_terms 1 [sampleMatchingDoc 0] (fun _ => 0)
    true false false false (some sampleEmptyAnalysis) ("zzz")
  refine ⟨?_, ?_, ?_⟩
  · rw [h.1]
    decide
  · exact (h.2 sampleConfidentAnalysis ("abc") (by decide)).1
  · exact (h.2 sampleConfidentAnalysis ("abc") (by decide)).2

/-! ## Claim about confidence monotonicity -/

/-- C8 amended: for the enhanced and basic strategies the reported
confidence never decreases as the number of returned documents grows,
and the vector confidence is monotone in the average similarity — but
not in the number of documents, as the counterexample shows. -/
theorem confidence_monotone_per_strategy :
    (∀ (n m : Nat) (c : ℚ), n ≤ m → enhancedConfidence n c ≤ enhancedConfidence m c)
      ∧ (∀ n m : Nat, n ≤ m → basicConfidence n ≤ basicConfidence m)
      ∧ (∀ x y : ℚ, x ≤ y → vectorConfidenceOfAvg x ≤ vectorConfidenceOfAvg y) := by
  refine ⟨?_, ?_, ?_⟩
  · intro n m c hnm
    unfold enhancedConfidence
    have h : (n : ℚ) ≤ (m : ℚ) := by exact_mod_cast hnm
    have : (n : ℚ) * (3/100) ≤ (m : ℚ) * (3/100) := by gcongr
    linarith
  · intro n m hnm
    unfold basicConfidence
    have h : (n : ℚ) ≤ (m : ℚ) := by exact_mod_cast hnm
    have : (n : ℚ) * (5/100) ≤ (m : ℚ) * (5/100) := by gcongr
    linarith
  · intro x y hxy
    unfold vectorConfidenceOfAvg
    apply min_le_min le_rfl
    have : x * (6/10) ≤ y * (6/10) := by gcongr
    linarith

/-- C8 counterexample: in the vector strategy, a second above-threshold
document with lower similarity drags the average down and the reported
confidence strictly drops from 0.94 to 0.763 — more documents can
decrease the confidence. -/
theorem vector_confidence_counterexample :
    vectorConfidence [9/10] = 94/100
      ∧ vectorConfidence [9/10, 31/100] = 763/1000
      ∧ vectorConfidence [9/10, 31/100] < vectorConfidence [9/10]
      ∧ (3/10 : ℚ) < 31/100 ∧ (3/10 : ℚ) < 9/10 := by
  have h1 : vectorConfidence [9/10] = 94/100 := by
    unfold vectorConfidence vectorConfidenceOfAvg
    norm_num [min_def]
  have h2 : vectorConfidence [9/10, 31/100] = 763/1000 := by
    unfold vectorConfidence vectorConfidenceOfAvg
    norm_num [min_def]
  refine ⟨h1, h2, ?_, by norm_num, by norm_num⟩
  rw [h1, h2]
  norm_num

/-- C8 amended witness: the monotonicity facts instantiated at concrete
counts and averages. -/
theorem confidence_monotone_per_strategy_witness :
    enhancedConfidence 1 (1/2) ≤ enhancedConfidence 2 (1/2)
      ∧ basicConfidence 1 ≤ basicConfidence 2
      ∧ vectorConfidenceOfAvg (1/2) ≤ vectorConfidenceOfAvg (3/4) :=
  ⟨confidence_monotone_per_strategy.1 1 2 (1/2) (by norm_num),
   confidence_monotone_per_strategy.2.1 1 2 (by norm_num),
   confidence_monotone_per_strategy.2.2 (1/2) (3/4) (by norm_num)⟩

end RfpBot
